import Mathlib

/-!
Verification of the training-orchestration logic of a nanoGPT fine-tuning fork
(`train.py`, together with the data-preparation constants of
`data/promts/prepare.py`).  The definitions below are shallow embeddings of
the corresponding Python functions; the theorems settle the specification
claims about them.
-/

namespace NanoGPT

/-! ### Learning-rate schedule (train.py, `get_lr`) -/

/-- The module-level schedule settings of train.py that `get_lr` reads:
`learning_rate`, `min_lr`, `warmup_iters`, `lr_decay_iters`. -/
structure LRConfig where
  learning_rate : ℝ
  min_lr : ℝ
  warmup_iters : ℕ
  lr_decay_iters : ℕ

/-- train.py: `decay_ratio = (it - warmup_iters) / (lr_decay_iters - warmup_iters)`,
the quantity the source asserts to lie in `[0, 1]`. -/
noncomputable def decay_frac (cfg : LRConfig) (it : ℕ) : ℝ :=
  ((it : ℝ) - cfg.warmup_iters) / ((cfg.lr_decay_iters : ℝ) - cfg.warmup_iters)

/-- train.py: `coeff = 0.5 * (1.0 + math.cos(math.pi * decay_ratio))`. -/
noncomputable def lr_coeff (cfg : LRConfig) (it : ℕ) : ℝ :=
  0.5 * (1.0 + Real.cos (Real.pi * decay_frac cfg it))

/-- train.py, `get_lr(it)`:
`if it < warmup_iters: return learning_rate * it / warmup_iters`;
`if it > lr_decay_iters: return min_lr`;
otherwise `min_lr + coeff * (learning_rate - min_lr)`. -/
noncomputable def get_lr (cfg : LRConfig) (it : ℕ) : ℝ :=
  if it < cfg.warmup_iters then cfg.learning_rate * it / cfg.warmup_iters
  else if cfg.lr_decay_iters < it then cfg.min_lr
  else cfg.min_lr + lr_coeff cfg it * (cfg.learning_rate - cfg.min_lr)

/-- The schedule as worded by the spec (for the refinement comparison with
`get_lr`): a linear ramp from 0 to `learning_rate` over `warmup_iters` steps,
cosine decay from `learning_rate` to `min_lr` between `warmup_iters` and
`lr_decay_iters`, and `min_lr` beyond `lr_decay_iters`. -/
noncomputable def lr_schedule_spec (cfg : LRConfig) (it : ℕ) : ℝ :=
  if it ≤ cfg.warmup_iters then cfg.learning_rate * it / cfg.warmup_iters
  else if it ≤ cfg.lr_decay_iters then
    cfg.min_lr +
      0.5 * (1 + Real.cos (Real.pi *
        (((it : ℝ) - cfg.warmup_iters) / ((cfg.lr_decay_iters : ℝ) - cfg.warmup_iters)))) *
      (cfg.learning_rate - cfg.min_lr)
  else cfg.min_lr

/-- The scenario configuration of the spec:
`warmup_iters=2000, lr_decay_iters=600000, learning_rate=3e-5, min_lr=6e-6`. -/
noncomputable def lrCfgScenario : LRConfig := ⟨3e-5, 6e-6, 2000, 600000⟩

/-- The default schedule settings of train.py:
`learning_rate = 3e-5`, `min_lr = 6e-5`, `warmup_iters = 2000`,
`lr_decay_iters = 600000` (note `min_lr > learning_rate` in these defaults). -/
noncomputable def lrCfgDefaults : LRConfig := ⟨3e-5, 6e-5, 2000, 600000⟩

/-! ### Checkpoint decision (train.py training loop, save block) -/

/-- One iteration of the checkpoint decision in the training loop of train.py:
the evaluation block runs when `iter_num != 0 and iter_num % eval_interval == 0
and master_process`; inside it,
`if losses['val'] < best_val_loss or always_save_checkpoint:` updates
`best_val_loss = losses['val']` and then writes the checkpoint under
`if iter_num > 0:`.  Returns the new tracked best value and whether a
checkpoint was written. -/
def ckptStep (always : Bool) (interval iter : ℕ) (master : Bool) (best loss : ℚ) :
    ℚ × Bool :=
  if iter ≠ 0 ∧ iter % interval = 0 ∧ master = true then
    if loss < best ∨ always = true then (loss, decide (0 < iter)) else (best, false)
  else (best, false)

/-- The tracked `best_val_loss` after a run of evaluation cycles, each given as
`(iter_num, master_process, val_loss)`. -/
def run_best (always : Bool) (interval : ℕ) : List (ℕ × Bool × ℚ) → ℚ → ℚ
  | [], b => b
  | c :: cs, b => run_best always interval cs (ckptStep always interval c.1 c.2.1 b c.2.2).1

/-! ### Conditional-mode dataset and the `get_batch` padding loop (train.py) -/

/-- One conditional-mode example, `{input: [token ids], target: [token ids]}`. -/
structure CondExample where
  input : List ℕ
  target : List ℕ
deriving DecidableEq

/-- A Python dict key as used by the conditional branch of `get_batch`:
`data[str(i)]` looks up the decimal-string form of `i` (constructor `.str i`)
while the `data[i]` occurrences inside the padding loop look up the integer
itself (constructor `.int i`).  `json.load` produces only `.str` keys.
(`str` on naturals is injective, which constructor injectivity models.) -/
inductive PyKey where
  | str (n : ℕ)
  | int (n : ℕ)
deriving DecidableEq

/-- Python exceptions relevant here: `KeyError` from a dict lookup with an
absent key, and the out-of-range failure of `torch.randint` with a
non-positive upper bound. -/
inductive PyErr where
  | keyError
  | outOfRange
deriving DecidableEq

/-- A JSON-loaded dataset partition: the dict as an association list. -/
abbrev Store := List (PyKey × CondExample)

/-- Python dict lookup (first matching key; dict keys are unique anyway). -/
def lookupKey : Store → PyKey → Option CondExample
  | [], _ => none
  | (k', e) :: d, k => if k' = k then some e else lookupKey d k

/-- Python `data[k]`: the value, or a `KeyError` when the key is absent. -/
def getKey (d : Store) (k : PyKey) : Except PyErr CondExample :=
  match lookupKey d k with
  | some e => .ok e
  | none => .error .keyError

/-- The stores produced by `json.load`: every key is a string key. -/
def strKeyed (d : Store) : Prop := ∀ p ∈ d, ∃ n, p.1 = PyKey.str n

/-- Append `pads` to the `target` field of the entry at key `k`
(`data[k]['target'] += ...`). -/
def appendTarget (d : Store) (k : PyKey) (pads : List ℕ) : Store :=
  d.map fun p => if p.1 = k then (p.1, ⟨p.2.input, p.2.target ++ pads⟩) else p

/-- Append `pads` to the `input` field of the entry at key `k`
(`data[k]['input'] += ...`). -/
def appendInput (d : Store) (k : PyKey) (pads : List ℕ) : Store :=
  d.map fun p => if p.1 = k then (p.1, ⟨p.2.input ++ pads, p.2.target⟩) else p

/-- The pad value train.py's `get_batch` padding loop appends: the literal
`50256` hard-coded in the loop body. -/
def get_batch_pad : ℕ := 50256

/-- The reserved padding token id defined by `data/promts/prepare.py`:
`"<|pad|>": 50257`, appended beyond the base gpt2 vocabulary. -/
def reserved_pad_id : ℕ := 50257

/-- The target half of one iteration of the padding loop of `get_batch`:
`if len(data[str(i)]['target']) < target_len:`
`  for j in range(len(data[i]['target']), target_len): data[str(i)]['target'] += [50256]`.
Note the `data[i]` integer-key lookup inside the guarded branch. -/
def padTargetStep (d : Store) (tlen i : ℕ) : Except PyErr Store :=
  match lookupKey d (.str i) with
  | none => .error .keyError
  | some e =>
    if e.target.length < tlen then
      match lookupKey d (.int i) with
      | none => .error .keyError
      | some e0 =>
        .ok (appendTarget d (.str i) (List.replicate (tlen - e0.target.length) get_batch_pad))
    else .ok d

/-- The input half of one iteration of the padding loop (same shape, `input`
field, bound `input_len`). -/
def padInputStep (d : Store) (ilen i : ℕ) : Except PyErr Store :=
  match lookupKey d (.str i) with
  | none => .error .keyError
  | some e =>
    if e.input.length < ilen then
      match lookupKey d (.int i) with
      | none => .error .keyError
      | some e0 =>
        .ok (appendInput d (.str i) (List.replicate (ilen - e0.input.length) get_batch_pad))
    else .ok d

/-- One full iteration of the padding loop body for example index `i`:
the target check, then the input check on the (possibly updated) store. -/
def padExample (d : Store) (tlen ilen i : ℕ) : Except PyErr Store :=
  match padTargetStep d tlen i with
  | .error er => .error er
  | .ok d1 => padInputStep d1 ilen i

/-- The padding loop `for i in range(ix, ix + batch_size):` of `get_batch`,
over the window of example indices. -/
def padLoop (tlen ilen : ℕ) : List ℕ → Store → Except PyErr Store
  | [], d => .ok d
  | i :: rest, d =>
    match padExample d tlen ilen i with
    | .error er => .error er
    | .ok d1 => padLoop tlen ilen rest d1

/-- `target_len = np.max([len(data[str(i)]['target']) for i in range(ix, ix+batch_size)])`:
the batch-wide maximum target length (as `foldl max 0`, which agrees with
`np.max` on the nonempty windows `get_batch` draws; absent keys contribute 0
here and are excluded by hypothesis in the theorems). -/
def window_target_len (d : Store) (win : List ℕ) : ℕ :=
  (win.map fun i => ((lookupKey d (.str i)).map fun e => e.target.length).getD 0).foldl max 0

/-- `input_len = np.max([len(data[str(i)]['input']) for i in range(ix, ix+batch_size)])`. -/
def window_input_len (d : Store) (win : List ℕ) : ℕ :=
  (win.map fun i => ((lookupKey d (.str i)).map fun e => e.input.length).getD 0).foldl max 0

/-- The conditional branch of `get_batch` after the index draw, for the drawn
window `range(ix0, ix0 + bs)`: compute the two batch-wide maxima, run the
padding loop, then collect the `input` rows (x) and `target` rows (y). -/
def get_batch_conditional (d : Store) (ix0 bs : ℕ) :
    Except PyErr (List (List ℕ) × List (List ℕ)) :=
  let win := List.range' ix0 bs
  match win.mapM (fun i => Except.map (fun e => e.target.length) (getKey d (.str i))) with
  | .error er => .error er
  | .ok tls =>
    match win.mapM (fun i => Except.map (fun e => e.input.length) (getKey d (.str i))) with
    | .error er => .error er
    | .ok ils =>
      match padLoop (tls.foldl max 0) (ils.foldl max 0) win d with
      | .error er => .error er
      | .ok d2 =>
        match win.mapM (fun i => Except.map (fun e => e.input) (getKey d2 (.str i))),
              win.mapM (fun i => Except.map (fun e => e.target) (getKey d2 (.str i))) with
        | .ok xs, .ok ys => .ok (xs, ys)
        | .error er, _ => .error er
        | _, .error er => .error er

/-- Example-wise extension: `e'` is `e` with (only) tokens appended to each
field; no content token is changed or removed. -/
def ExtendsEx (e e' : CondExample) : Prop :=
  (∃ p, e'.input = e.input ++ p) ∧ (∃ p, e'.target = e.target ++ p)

/-- Store-wise extension: every entry of `d` is still present in `d'` with
both sequences extended, never truncated. -/
def ExtendsStore (d d' : Store) : Prop :=
  ∀ k e, lookupKey d k = some e → ∃ e', lookupKey d' k = some e' ∧ ExtendsEx e e'

/-- The concrete two-example conditional store of the C1 scenario: inputs of
length 3 and length 5 (targets of equal length 1), under the string keys
`json.load` produces. -/
def scenarioStore : Store :=
  [(.str 0, ⟨[1, 2, 3], [7]⟩), (.str 1, ⟨[4, 5, 6, 7, 8], [9]⟩)]

/-! ### Random-draw bounds of `get_batch` (train.py) -/

/-- LM mode: `ix = torch.randint(len(data) - block_size, (batch_size,))`.
`torch.randint(high, ...)` draws only when `high > 0` (Python int
subtraction, so the bound is over ℤ). -/
def lm_draw_ok (data_len block_size : ℕ) : Bool :=
  decide (0 < (data_len : ℤ) - block_size)

/-- Conditional mode: `ix = torch.randint(len(data) - batch_size - 1, (1,))`. -/
def cond_draw_ok (data_len batch_size : ℕ) : Bool :=
  decide (0 < (data_len : ℤ) - batch_size - 1)

/-! ### Evaluation-engine generation length (train.py, `estimate_loss_and_metrics`) -/

/-- Modelled from the spec: the GPT model class (model.py) is not under src;
§6 gives the collaborator contract
`generate(input_ids, max_new_tokens, optional loss_flag) -> generated_ids`,
autoregressive generation that appends exactly `max_new_tokens` new tokens to
the input.  Length of the generated sequence. -/
def generate_length (input_len max_new_tokens : ℕ) : ℕ := input_len + max_new_tokens

/-- train.py, `estimate_loss_and_metrics`, conditional path:
`X_seq = model.generate(X, X.shape[1])` — the requested number of new tokens
is `X.shape[1]`, the input length.  Length of the generated sequence for an
evaluation mini-batch whose input rows have length `x_len`. -/
def eval_cond_gen_len (x_len : ℕ) : ℕ := generate_length x_len x_len

/-! ## Helper lemmas: the learning-rate schedule -/

/-- On the middle branch (`¬ it < warmup_iters`, `¬ lr_decay_iters < it`)
`get_lr` returns the cosine interpolation. -/
lemma get_lr_cos_branch (cfg : LRConfig) {it : ℕ} (h1 : ¬ it < cfg.warmup_iters)
    (h2 : ¬ cfg.lr_decay_iters < it) :
    get_lr cfg it = cfg.min_lr + lr_coeff cfg it * (cfg.learning_rate - cfg.min_lr) := by
  rw [get_lr, if_neg h1, if_neg h2]

/-- At `it = warmup_iters` (with a longer decay horizon) the cosine branch
yields exactly `learning_rate`. -/
lemma get_lr_at_warmup (cfg : LRConfig) (hwd : cfg.warmup_iters < cfg.lr_decay_iters) :
    get_lr cfg cfg.warmup_iters = cfg.learning_rate := by
  rw [get_lr_cos_branch cfg (lt_irrefl _) (not_lt.mpr hwd.le), lr_coeff, decay_frac]
  simp only [sub_self, zero_div, mul_zero, Real.cos_zero]
  ring

/-- At `it = lr_decay_iters` (with a nonempty decay interval) the cosine
branch yields exactly `min_lr`. -/
lemma get_lr_at_decay (cfg : LRConfig) (hwd : cfg.warmup_iters < cfg.lr_decay_iters) :
    get_lr cfg cfg.lr_decay_iters = cfg.min_lr := by
  have hne : ((cfg.lr_decay_iters : ℝ) - cfg.warmup_iters) ≠ 0 := by
    have : (cfg.warmup_iters : ℝ) < cfg.lr_decay_iters := by exact_mod_cast hwd
    linarith
  rw [get_lr_cos_branch cfg (not_lt.mpr hwd.le) (lt_irrefl _), lr_coeff, decay_frac,
    div_self hne, mul_one, Real.cos_pi]
  ring

/-- `get_lr` agrees pointwise with the spec-worded schedule on every
configuration with `0 < warmup_iters < lr_decay_iters`. -/
lemma get_lr_eq_schedule (cfg : LRConfig) (hw : 0 < cfg.warmup_iters)
    (hwd : cfg.warmup_iters < cfg.lr_decay_iters) (it : ℕ) :
    get_lr cfg it = lr_schedule_spec cfg it := by
  rcases lt_trichotomy it cfg.warmup_iters with h | h | h
  · rw [get_lr, lr_schedule_spec, if_pos h, if_pos h.le]
  · subst h
    rw [lr_schedule_spec, if_pos le_rfl, get_lr_at_warmup cfg hwd]
    have hw' : (cfg.warmup_iters : ℝ) ≠ 0 := Nat.cast_ne_zero.mpr hw.ne'
    rw [mul_div_assoc, div_self hw', mul_one]
  · have h1 : ¬ it < cfg.warmup_iters := not_lt.mpr h.le
    have h1' : ¬ it ≤ cfg.warmup_iters := not_le.mpr h
    rcases le_or_lt it cfg.lr_decay_iters with h2 | h2
    · rw [get_lr, lr_schedule_spec, if_neg h1, if_neg h1', if_neg (not_lt.mpr h2), if_pos h2,
        lr_coeff, decay_frac]
      norm_num
    · rw [get_lr, lr_schedule_spec, if_neg h1, if_neg h1', if_pos h2, if_neg (not_le.mpr h2)]

/-- The cosine coefficient is never negative. -/
lemma lr_coeff_nonneg (cfg : LRConfig) (it : ℕ) : 0 ≤ lr_coeff cfg it := by
  have h := Real.neg_one_le_cos (Real.pi * decay_frac cfg it)
  rw [lr_coeff]; linarith

/-- The cosine coefficient is antitone over the decay interval. -/
lemma lr_coeff_antitone (cfg : LRConfig) (hwd : cfg.warmup_iters < cfg.lr_decay_iters)
    {i j : ℕ} (hi : cfg.warmup_iters ≤ i) (hij : i ≤ j) (hj : j ≤ cfg.lr_decay_iters) :
    lr_coeff cfg j ≤ lr_coeff cfg i := by
  have hdw : (0 : ℝ) < (cfg.lr_decay_iters : ℝ) - cfg.warmup_iters := by
    have : (cfg.warmup_iters : ℝ) < cfg.lr_decay_iters := by exact_mod_cast hwd
    linarith
  have hiw : (cfg.warmup_iters : ℝ) ≤ i := by exact_mod_cast hi
  have hijr : (i : ℝ) ≤ j := by exact_mod_cast hij
  have hjd : (j : ℝ) ≤ cfg.lr_decay_iters := by exact_mod_cast hj
  have hfi : 0 ≤ decay_frac cfg i := div_nonneg (by linarith) hdw.le
  have hfij : decay_frac cfg i ≤ decay_frac cfg j := by
    unfold decay_frac
    exact (div_le_div_iff_of_pos_right hdw).mpr (by linarith)
  have hfj : decay_frac cfg j ≤ 1 := by
    unfold decay_frac
    exact (div_le_one hdw).mpr (by linarith)
  have hpi := Real.pi_pos
  have hc := Real.cos_le_cos_of_nonneg_of_le_pi
    (mul_nonneg hpi.le hfi)
    (by nlinarith : Real.pi * decay_frac cfg j ≤ Real.pi)
    (by nlinarith : Real.pi * decay_frac cfg i ≤ Real.pi * decay_frac cfg j)
  rw [lr_coeff, lr_coeff]
  linarith

/-! ## Helper lemmas: the conditional padding loop -/

/-- In a `json.load`-produced store every key is a string, so any integer-key
lookup (`data[i]` with `i` an int) misses. -/
lemma lookupKey_int_eq_none {d : Store} (h : strKeyed d) (i : ℕ) :
    lookupKey d (.int i) = none := by
  induction d with
  | nil => rfl
  | cons p rest ih =>
    obtain ⟨k, e⟩ := p
    obtain ⟨n, hn⟩ := h (k, e) (List.mem_cons_self _ _)
    simp only at hn
    rw [lookupKey, hn, if_neg (by simp)]
    exact ih fun q hq => h q (List.mem_cons_of_mem _ hq)

/-- An example whose target is already at the bound passes its target check
untouched. -/
lemma padTargetStep_of_ge {d : Store} {e : CondExample} {tlen i : ℕ}
    (he : lookupKey d (.str i) = some e) (hlen : ¬ e.target.length < tlen) :
    padTargetStep d tlen i = .ok d := by
  simp [padTargetStep, he, hlen]

/-- A strictly shorter target sends the target check into the integer-key
lookup, which raises `KeyError` on a string-keyed store. -/
lemma padTargetStep_of_lt {d : Store} {e : CondExample} {tlen i : ℕ} (hS : strKeyed d)
    (he : lookupKey d (.str i) = some e) (hlen : e.target.length < tlen) :
    padTargetStep d tlen i = .error .keyError := by
  simp [padTargetStep, he, hlen, lookupKey_int_eq_none hS]

/-- An example whose input is already at the bound passes its input check
untouched. -/
lemma padInputStep_of_ge {d : Store} {e : CondExample} {ilen i : ℕ}
    (he : lookupKey d (.str i) = some e) (hlen : ¬ e.input.length < ilen) :
    padInputStep d ilen i = .ok d := by
  simp [padInputStep, he, hlen]

/-- A strictly shorter input sends the input check into the integer-key
lookup, which raises `KeyError` on a string-keyed store. -/
lemma padInputStep_of_lt {d : Store} {e : CondExample} {ilen i : ℕ} (hS : strKeyed d)
    (he : lookupKey d (.str i) = some e) (hlen : e.input.length < ilen) :
    padInputStep d ilen i = .error .keyError := by
  simp [padInputStep, he, hlen, lookupKey_int_eq_none hS]

/-- An example already at both bounds passes its loop iteration with the
store unchanged. -/
lemma padExample_of_ok {d : Store} {e : CondExample} {tlen ilen i : ℕ}
    (he : lookupKey d (.str i) = some e) (ht : ¬ e.target.length < tlen)
    (hi : ¬ e.input.length < ilen) : padExample d tlen ilen i = .ok d := by
  rw [padExample, padTargetStep_of_ge he ht]
  exact padInputStep_of_ge he hi

/-- An example strictly shorter in either field makes its loop iteration
raise `KeyError` on a string-keyed store. -/
lemma padExample_err_of_short {d : Store} {e : CondExample} {tlen ilen i : ℕ}
    (hS : strKeyed d) (he : lookupKey d (.str i) = some e)
    (h : e.target.length < tlen ∨ e.input.length < ilen) :
    padExample d tlen ilen i = .error .keyError := by
  by_cases ht : e.target.length < tlen
  · rw [padExample, padTargetStep_of_lt hS he ht]
  · have hin : e.input.length < ilen := h.resolve_left ht
    rw [padExample, padTargetStep_of_ge he ht]
    exact padInputStep_of_lt hS he hin

/-- Dichotomy for the padding loop on a string-keyed store whose window keys
all resolve: either nothing is short and the loop returns the store
unchanged, or something is short and the loop raises `KeyError`. -/
lemma padLoop_charact (tlen ilen : ℕ) (win : List ℕ) (d : Store) (hS : strKeyed d)
    (hwin : ∀ i ∈ win, ∃ e, lookupKey d (.str i) = some e) :
    (padLoop tlen ilen win d = .ok d ∧ ∀ i ∈ win, ∀ e, lookupKey d (.str i) = some e →
        ¬ e.target.length < tlen ∧ ¬ e.input.length < ilen) ∨
    (padLoop tlen ilen win d = .error .keyError ∧ ∃ i ∈ win, ∃ e,
        lookupKey d (.str i) = some e ∧
        (e.target.length < tlen ∨ e.input.length < ilen)) := by
  induction win with
  | nil => left; exact ⟨rfl, by simp⟩
  | cons i rest ih =>
    obtain ⟨e, he⟩ := hwin i (List.mem_cons_self _ _)
    by_cases h : e.target.length < tlen ∨ e.input.length < ilen
    · right
      refine ⟨?_, i, List.mem_cons_self _ _, e, he, h⟩
      rw [padLoop, padExample_err_of_short hS he h]
    · push_neg at h
      have hok : padExample d tlen ilen i = .ok d :=
        padExample_of_ok he (not_lt.mpr h.1) (not_lt.mpr h.2)
      rcases ih (fun j hj => hwin j (List.mem_cons_of_mem _ hj)) with ⟨hpad, hall⟩ | ⟨hpad, hex⟩
      · left
        refine ⟨by rw [padLoop, hok]; exact hpad, ?_⟩
        intro j hj e' he'
        rcases List.mem_cons.mp hj with rfl | hj'
        · rw [he] at he'
          injection he' with h2
          subst h2
          exact ⟨not_lt.mpr h.1, not_lt.mpr h.2⟩
        · exact hall j hj' e' he'
      · right
        obtain ⟨j, hj, e', he', hsh⟩ := hex
        exact ⟨by rw [padLoop, hok]; exact hpad, j, List.mem_cons_of_mem _ hj, e', he', hsh⟩

/-- Extension is reflexive. -/
lemma extendsEx_refl (e : CondExample) : ExtendsEx e e :=
  ⟨⟨[], (List.append_nil _).symm⟩, ⟨[], (List.append_nil _).symm⟩⟩

/-- Extension is transitive. -/
lemma extendsEx_trans {e1 e2 e3 : CondExample} (h12 : ExtendsEx e1 e2)
    (h23 : ExtendsEx e2 e3) : ExtendsEx e1 e3 := by
  obtain ⟨⟨p1, hp1⟩, ⟨q1, hq1⟩⟩ := h12
  obtain ⟨⟨p2, hp2⟩, ⟨q2, hq2⟩⟩ := h23
  exact ⟨⟨p1 ++ p2, by rw [hp2, hp1, List.append_assoc]⟩,
    ⟨q1 ++ q2, by rw [hq2, hq1, List.append_assoc]⟩⟩

/-- Store extension is reflexive. -/
lemma extendsStore_refl (d : Store) : ExtendsStore d d :=
  fun _ e h => ⟨e, h, extendsEx_refl e⟩

/-- Store extension is transitive. -/
lemma extendsStore_trans {d1 d2 d3 : Store} (h12 : ExtendsStore d1 d2)
    (h23 : ExtendsStore d2 d3) : ExtendsStore d1 d3 := by
  intro k e h
  obtain ⟨e2, he2, hx2⟩ := h12 k e h
  obtain ⟨e3, he3, hx3⟩ := h23 k e2 he2
  exact ⟨e3, he3, extendsEx_trans hx2 hx3⟩

/-- Appending pads to one entry's target only extends the store. -/
lemma extends_appendTarget (d : Store) (k : PyKey) (pads : List ℕ) :
    ExtendsStore d (appendTarget d k pads) := by
  intro k' e h
  induction d with
  | nil => simp [lookupKey] at h
  | cons p rest ih =>
    obtain ⟨k0, e0⟩ := p
    by_cases h0 : k0 = k'
    · rw [lookupKey, if_pos h0] at h
      injection h with h1
      subst h1
      by_cases h2 : k0 = k
      · refine ⟨⟨e0.input, e0.target ++ pads⟩, ?_, ⟨[], (List.append_nil _).symm⟩, pads, rfl⟩
        simp only [appendTarget, List.map_cons]
        rw [if_pos h2]
        simp only [lookupKey]
        rw [if_pos h0]
      · refine ⟨e0, ?_, extendsEx_refl e0⟩
        simp only [appendTarget, List.map_cons]
        rw [if_neg h2]
        simp only [lookupKey]
        rw [if_pos h0]
    · rw [lookupKey, if_neg h0] at h
      obtain ⟨e', he', hx⟩ := ih h
      refine ⟨e', ?_, hx⟩
      by_cases h2 : k0 = k
      · simp only [appendTarget, List.map_cons] at he' ⊢
        rw [if_pos h2]
        simp only [lookupKey]
        rw [if_neg h0]
        exact he'
      · simp only [appendTarget, List.map_cons] at he' ⊢
        rw [if_neg h2]
        simp only [lookupKey]
        rw [if_neg h0]
        exact he'

/-- Appending pads to one entry's input only extends the store. -/
lemma extends_appendInput (d : Store) (k : PyKey) (pads : List ℕ) :
    ExtendsStore d (appendInput d k pads) := by
  intro k' e h
  induction d with
  | nil => simp [lookupKey] at h
  | cons p rest ih =>
    obtain ⟨k0, e0⟩ := p
    by_cases h0 : k0 = k'
    · rw [lookupKey, if_pos h0] at h
      injection h with h1
      subst h1
      by_cases h2 : k0 = k
      · refine ⟨⟨e0.input ++ pads, e0.target⟩, ?_, ⟨pads, rfl⟩, [], (List.append_nil _).symm⟩
        simp only [appendInput, List.map_cons]
        rw [if_pos h2]
        simp only [lookupKey]
        rw [if_pos h0]
      · refine ⟨e0, ?_, extendsEx_refl e0⟩
        simp only [appendInput, List.map_cons]
        rw [if_neg h2]
        simp only [lookupKey]
        rw [if_pos h0]
    · rw [lookupKey, if_neg h0] at h
      obtain ⟨e', he', hx⟩ := ih h
      refine ⟨e', ?_, hx⟩
      by_cases h2 : k0 = k
      · simp only [appendInput, List.map_cons] at he' ⊢
        rw [if_pos h2]
        simp only [lookupKey]
        rw [if_neg h0]
        exact he'
      · simp only [appendInput, List.map_cons] at he' ⊢
        rw [if_neg h2]
        simp only [lookupKey]
        rw [if_neg h0]
        exact he'

/-- A successful target check only extends the store. -/
lemma padTargetStep_extends {d d' : Store} {tlen i : ℕ}
    (h : padTargetStep d tlen i = .ok d') : ExtendsStore d d' := by
  rw [padTargetStep] at h
  split at h
  · exact absurd h (by simp)
  · split_ifs at h with hlen
    · split at h
      · exact absurd h (by simp)
      · injection h with h1
        subst h1
        exact extends_appendTarget _ _ _
    · injection h with h1
      subst h1
      exact extendsStore_refl _

/-- A successful input check only extends the store. -/
lemma padInputStep_extends {d d' : Store} {ilen i : ℕ}
    (h : padInputStep d ilen i = .ok d') : ExtendsStore d d' := by
  rw [padInputStep] at h
  split at h
  · exact absurd h (by simp)
  · split_ifs at h with hlen
    · split at h
      · exact absurd h (by simp)
      · injection h with h1
        subst h1
        exact extends_appendInput _ _ _
    · injection h with h1
      subst h1
      exact extendsStore_refl _

/-- A successful loop iteration only extends the store. -/
lemma padExample_extends {d d' : Store} {tlen ilen i : ℕ}
    (h : padExample d tlen ilen i = .ok d') : ExtendsStore d d' := by
  rw [padExample] at h
  split at h
  · exact absurd h (by simp)
  · next d1 heq =>
    exact extendsStore_trans (padTargetStep_extends heq) (padInputStep_extends h)

/-- A successful padding loop only extends the store: content tokens are
never changed, removed or truncated. -/
lemma padLoop_extends {tlen ilen : ℕ} {win : List ℕ} {d d' : Store}
    (h : padLoop tlen ilen win d = .ok d') : ExtendsStore d d' := by
  induction win generalizing d with
  | nil =>
    rw [padLoop] at h
    injection h with h1
    subst h1
    exact extendsStore_refl _
  | cons i rest ih =>
    rw [padLoop] at h
    split at h
    · exact absurd h (by simp)
    · next d1 heq =>
      exact extendsStore_trans (padExample_extends heq) (ih h)

/-- If every window example is already at both bounds, the padding loop
succeeds and returns the store unchanged. -/
lemma padLoop_ok_of_full {tlen ilen : ℕ} {win : List ℕ} {d : Store}
    (hwin : ∀ i ∈ win, ∃ e, lookupKey d (.str i) = some e ∧
      ¬ e.target.length < tlen ∧ ¬ e.input.length < ilen) :
    padLoop tlen ilen win d = .ok d := by
  induction win with
  | nil => rfl
  | cons i rest ih =>
    obtain ⟨e, he, ht, hi⟩ := hwin i (List.mem_cons_self _ _)
    rw [padLoop, padExample_of_ok he ht hi]
    exact ih fun j hj => hwin j (List.mem_cons_of_mem _ hj)

/-- The seed of a `foldl max` is a lower bound of the result. -/
lemma le_foldl_max_init : ∀ (l : List ℕ) (b : ℕ), b ≤ l.foldl max b := by
  intro l
  induction l with
  | nil => intro b; exact le_refl b
  | cons x xs ih =>
    intro b
    rw [List.foldl_cons]
    exact le_trans (le_max_left b x) (ih (max b x))

/-- Every member of the list is a lower bound of its `foldl max`. -/
lemma le_foldl_max_of_mem {l : List ℕ} {a : ℕ} (h : a ∈ l) (b : ℕ) : a ≤ l.foldl max b := by
  induction l generalizing b with
  | nil => cases h
  | cons x xs ih =>
    rw [List.foldl_cons]
    rcases List.mem_cons.mp h with rfl | h'
    · exact le_trans (le_max_right b a) (le_foldl_max_init xs (max b a))
    · exact ih h' (max b x)

/-- Every window example's target length is bounded by the batch-wide
maximum target length. -/
lemma target_length_le_window {d : Store} {win : List ℕ} {i : ℕ} {e : CondExample}
    (hi : i ∈ win) (he : lookupKey d (.str i) = some e) :
    e.target.length ≤ window_target_len d win := by
  apply le_foldl_max_of_mem
  rw [List.mem_map]
  exact ⟨i, hi, by rw [he]; rfl⟩

/-- Every window example's input length is bounded by the batch-wide
maximum input length. -/
lemma input_length_le_window {d : Store} {win : List ℕ} {i : ℕ} {e : CondExample}
    (hi : i ∈ win) (he : lookupKey d (.str i) = some e) :
    e.input.length ≤ window_input_len d win := by
  apply le_foldl_max_of_mem
  rw [List.mem_map]
  exact ⟨i, hi, by rw [he]; rfl⟩

/-! ## Claim theorems -/

/-- Claim C1 (code bug): on the spec's scenario — a conditional batch of two
examples with inputs of length 3 and 5 — `get_batch` does not pad the short
input to length 5 with the reserved pad id 50257; it raises a `KeyError`
(the padding loop indexes the string-keyed JSON dict with an integer key),
and the pad constant it would append (50256) is not the reserved pad id
50257 that prepare.py defines. -/
theorem get_batch_padding_key_bug :
    get_batch_conditional scenarioStore 0 2 = .error .keyError ∧
    get_batch_pad ≠ reserved_pad_id := by
  constructor
  · rfl
  · decide

/-- Claim C2: with decay enabled, `get_lr` equals the warmup-then-cosine
schedule described by the spec (linear ramp to `learning_rate` over
`warmup_iters`, cosine decay to `min_lr` until `lr_decay_iters`, `min_lr`
beyond) on every configuration with a positive warmup shorter than the
decay horizon; and on the scenario configuration `warmup_iters=2000,
lr_decay_iters=600000, learning_rate=3e-5, min_lr=6e-6` it takes the values
`0, 1.5e-5, 3e-5, 6e-6, 6e-6` at iterations `0, 1000, 2000, 600000, 700000`. -/
theorem get_lr_matches_schedule_and_scenario :
    (∀ cfg : LRConfig, 0 < cfg.warmup_iters → cfg.warmup_iters < cfg.lr_decay_iters →
      ∀ it, get_lr cfg it = lr_schedule_spec cfg it) ∧
    get_lr lrCfgScenario 0 = 0 ∧
    get_lr lrCfgScenario 1000 = 1.5e-5 ∧
    get_lr lrCfgScenario 2000 = 3e-5 ∧
    get_lr lrCfgScenario 600000 = 6e-6 ∧
    get_lr lrCfgScenario 700000 = 6e-6 := by
  refine ⟨get_lr_eq_schedule, ?_, ?_, ?_, ?_, ?_⟩
  · norm_num [get_lr, lrCfgScenario]
  · norm_num [get_lr, lrCfgScenario]
  · norm_num [get_lr, lrCfgScenario, lr_coeff, decay_frac, Real.cos_zero]
  · norm_num [get_lr, lrCfgScenario, lr_coeff, decay_frac, Real.cos_pi]
  · norm_num [get_lr, lrCfgScenario]

/-- Witness for C2: the refinement instantiated at the scenario
configuration and iteration 300000, with its hypotheses discharged. -/
theorem get_lr_matches_schedule_and_scenario_witness :
    get_lr lrCfgScenario 300000 = lr_schedule_spec lrCfgScenario 300000 ∧
    get_lr lrCfgScenario 0 = 0 :=
  ⟨get_lr_matches_schedule_and_scenario.1 lrCfgScenario (by norm_num [lrCfgScenario])
      (by norm_num [lrCfgScenario]) 300000,
   get_lr_matches_schedule_and_scenario.2.1⟩

/-- Claim C3: at an evaluation cycle (`iter_num ≠ 0`, divisible by the
interval, on the logging-authority process) a checkpoint is written iff
`always_save_checkpoint` is set or the validation loss strictly improves on
the tracked best; a checkpoint is never written at iteration 0; and on the
scenario `always_save_checkpoint=False`, prior best `0.9`, new loss `1.2`,
nothing is written and the best value is unchanged. -/
theorem checkpoint_save_iff :
    (∀ (always master : Bool) (interval iter : ℕ) (best loss : ℚ),
      iter ≠ 0 → iter % interval = 0 → master = true →
      ((ckptStep always interval iter master best loss).2 = true ↔
        (always = true ∨ loss < best))) ∧
    (∀ (always master : Bool) (interval : ℕ) (best loss : ℚ),
      (ckptStep always interval 0 master best loss).2 = false) ∧
    ckptStep false 5 5 true (9/10) (12/10) = ((9/10 : ℚ), false) := by
  refine ⟨?_, ?_, ?_⟩
  · intro always master interval iter best loss h0 hmod hm
    rw [ckptStep, if_pos ⟨h0, hmod, hm⟩]
    split_ifs with h
    · simp only [decide_eq_true_eq]
      exact ⟨fun _ => Or.comm.mp h, fun _ => Nat.pos_of_ne_zero h0⟩
    · simp only [Bool.false_eq_true, false_iff]
      intro hc
      exact h (Or.comm.mp hc)
  · intro always master interval best loss
    rw [ckptStep]
    simp
  · norm_num [ckptStep]

/-- Witness for C3: the save-iff instantiated at the scenario evaluation
cycle, with its hypotheses discharged. -/
theorem checkpoint_save_iff_witness :
    (ckptStep false 5 5 true (9/10) (12/10)).2 = true ↔
      (false = true ∨ (12/10 : ℚ) < 9/10) :=
  checkpoint_save_iff.1 false true 5 5 (9/10) (12/10) (by decide) (by decide) rfl

/-- Counterexample to claim C4 as stated: with `always_save_checkpoint=True`
an evaluation cycle (iteration 5, interval 5, master) raises the tracked
best from 0.9 to 1.2, so `best_val_loss` is not non-increasing over every run. -/
theorem best_val_loss_increase_cex :
    (ckptStep true 5 5 true (9/10) (12/10)).1 = 12/10 ∧
    ¬ (ckptStep true 5 5 true (9/10) (12/10)).1 ≤ 9/10 := by
  norm_num [ckptStep]

/-- Claim C4 (amended): with `always_save_checkpoint` disabled, every
evaluation cycle leaves the tracked `best_val_loss` equal or smaller, and
the value after any run of evaluation cycles never exceeds the initial one. -/
theorem best_val_loss_antitone_without_always :
    (∀ (master : Bool) (interval iter : ℕ) (best loss : ℚ),
      (ckptStep false interval iter master best loss).1 ≤ best) ∧
    (∀ (interval : ℕ) (cycles : List (ℕ × Bool × ℚ)) (best : ℚ),
      run_best false interval cycles best ≤ best) := by
  have hstep : ∀ (master : Bool) (interval iter : ℕ) (best loss : ℚ),
      (ckptStep false interval iter master best loss).1 ≤ best := by
    intro master interval iter best loss
    rw [ckptStep]
    split_ifs with h1 h2
    · rcases h2 with h | h
      · exact h.le
      · simp at h
    · exact le_refl best
    · exact le_refl best
  refine ⟨hstep, ?_⟩
  intro interval cycles
  induction cycles with
  | nil => intro best; exact le_refl best
  | cons c cs ih =>
    intro best
    rw [run_best]
    exact le_trans (ih _) (hstep c.2.1 interval c.1 best c.2.2)

/-- Counterexample to claim C5 as stated: for an evaluation batch with input
length 3 and target length 5 the conditional path generates 3 new tokens
(`X.shape[1]`), not 5 (the target length). -/
theorem eval_gen_len_cex :
    eval_cond_gen_len 3 - 3 = 3 ∧ eval_cond_gen_len 3 - 3 ≠ 5 := by decide

/-- Claim C5 (amended): in the evaluation engine's conditional path the
number of newly generated tokens equals the input length `X.shape[1]` of
the batch, and it equals the target length exactly when input and target
lengths coincide (as they do for the pre-padded prepared dataset). -/
theorem eval_gen_len_eq_input_len :
    ∀ x_len y_len : ℕ, eval_cond_gen_len x_len - x_len = x_len ∧
      (eval_cond_gen_len x_len - x_len = y_len ↔ y_len = x_len) := by
  intro x_len y_len
  simp [eval_cond_gen_len, generate_length]
  omega

/-- Counterexample to claim C6 as stated: in conditional mode with partition
size 2 and `batch_size = 1` (the default), `batch_size` does not exceed the
partition size, yet the draw fails (`torch.randint(2 - 1 - 1)` has a
non-positive bound). -/
theorem cond_draw_bound_cex : cond_draw_ok 2 1 = false ∧ ¬ (1 > 2) := by decide

/-- Claim C6 (amended): the LM-mode draw fails iff `block_size + 1` exceeds
the partition length, exactly as claimed; the conditional-mode draw fails
iff `batch_size + 2` exceeds the partition size (not iff `batch_size`
exceeds it), and succeeds for every partition satisfying these bounds. -/
theorem draw_ok_iff_bounds :
    (∀ n bs : ℕ, lm_draw_ok n bs = false ↔ bs + 1 > n) ∧
    (∀ n bs : ℕ, lm_draw_ok n bs = true ↔ bs + 1 ≤ n) ∧
    (∀ n bs : ℕ, cond_draw_ok n bs = false ↔ bs + 2 > n) ∧
    (∀ n bs : ℕ, cond_draw_ok n bs = true ↔ bs + 2 ≤ n) := by
  refine ⟨?_, ?_, ?_, ?_⟩ <;>
    intro n bs <;>
    simp only [lm_draw_ok, cond_draw_ok, decide_eq_false_iff_not, decide_eq_true_eq, not_lt] <;>
    omega

/-- Counterexample to claim C7 as stated: under train.py's default settings
(`learning_rate = 3e-5`, `min_lr = 6e-5`, both non-negative) the schedule is
not non-increasing on `[warmup_iters, lr_decay_iters]`: it rises from
`3e-5` at iteration 2000 to `6e-5` at iteration 600000. -/
theorem get_lr_monotone_cex :
    0 ≤ lrCfgDefaults.min_lr ∧ 0 ≤ lrCfgDefaults.learning_rate ∧
    lrCfgDefaults.warmup_iters ≤ 2000 ∧ (2000 : ℕ) ≤ 600000 ∧
    (600000 : ℕ) ≤ lrCfgDefaults.lr_decay_iters ∧
    get_lr lrCfgDefaults 2000 < get_lr lrCfgDefaults 600000 := by
  refine ⟨by norm_num [lrCfgDefaults], by norm_num [lrCfgDefaults],
    by norm_num [lrCfgDefaults], by norm_num, by norm_num [lrCfgDefaults], ?_⟩
  have h1 : get_lr lrCfgDefaults 2000 = 3e-5 := by
    norm_num [get_lr, lrCfgDefaults, lr_coeff, decay_frac, Real.cos_zero]
  have h2 : get_lr lrCfgDefaults 600000 = 6e-5 := by
    norm_num [get_lr, lrCfgDefaults, lr_coeff, decay_frac, Real.cos_pi]
  rw [h1, h2]
  norm_num

/-- Claim C7 (amended): given `0 ≤ min_lr ≤ learning_rate` and
`warmup_iters < lr_decay_iters` (the cosine branch divides by their
difference), `get_lr` is non-negative everywhere, non-decreasing on
`[0, warmup_iters]`, non-increasing on `[warmup_iters, lr_decay_iters]`,
equals `min_lr` at `lr_decay_iters`, and stays `min_lr` beyond. -/
theorem get_lr_shape (cfg : LRConfig) (hm0 : 0 ≤ cfg.min_lr)
    (hml : cfg.min_lr ≤ cfg.learning_rate)
    (hwd : cfg.warmup_iters < cfg.lr_decay_iters) :
    (∀ it, 0 ≤ get_lr cfg it) ∧
    (∀ i j, i ≤ j → j ≤ cfg.warmup_iters → get_lr cfg i ≤ get_lr cfg j) ∧
    (∀ i j, cfg.warmup_iters ≤ i → i ≤ j → j ≤ cfg.lr_decay_iters →
      get_lr cfg j ≤ get_lr cfg i) ∧
    get_lr cfg cfg.lr_decay_iters = cfg.min_lr ∧
    (∀ it, cfg.lr_decay_iters ≤ it → get_lr cfg it = cfg.min_lr) := by
  have hlr : 0 ≤ cfg.learning_rate := hm0.trans hml
  refine ⟨?_, ?_, ?_, get_lr_at_decay cfg hwd, ?_⟩
  · intro it
    rw [get_lr]
    split_ifs with h1 h2
    · exact div_nonneg (mul_nonneg hlr (Nat.cast_nonneg _)) (Nat.cast_nonneg _)
    · exact hm0
    · have := mul_nonneg (lr_coeff_nonneg cfg it) (sub_nonneg.mpr hml)
      linarith
  · intro i j hij hjw
    rcases eq_or_lt_of_le hij with rfl | hij'
    · exact le_refl _
    · have hiw : i < cfg.warmup_iters := lt_of_lt_of_le hij' hjw
      have hw0 : (0 : ℝ) < (cfg.warmup_iters : ℝ) := by
        exact_mod_cast lt_of_le_of_lt (Nat.zero_le i) hiw
      rw [get_lr, if_pos hiw]
      rcases lt_or_eq_of_le hjw with hj | hj
      · rw [get_lr, if_pos hj]
        exact (div_le_div_iff_of_pos_right hw0).mpr
          (mul_le_mul_of_nonneg_left (by exact_mod_cast hij'.le) hlr)
      · rw [hj, get_lr_at_warmup cfg hwd, div_le_iff₀ hw0]
        have hic : (i : ℝ) ≤ cfg.warmup_iters := by exact_mod_cast hiw.le
        nlinarith
  · intro i j hwi hij hjd
    rw [get_lr_cos_branch cfg (not_lt.mpr (hwi.trans hij)) (not_lt.mpr hjd),
      get_lr_cos_branch cfg (not_lt.mpr hwi) (not_lt.mpr (hij.trans hjd))]
    have hmono := lr_coeff_antitone cfg hwd hwi hij hjd
    have hs := sub_nonneg.mpr hml
    nlinarith
  · intro it hit
    rcases eq_or_lt_of_le hit with rfl | h
    · exact get_lr_at_decay cfg hwd
    · rw [get_lr, if_neg (not_lt.mpr (hwd.trans h).le), if_pos h]

/-- Witness for C7 (amended): the shape theorem instantiated at the scenario
configuration, with its hypotheses discharged, evaluated at concrete
iterations. -/
theorem get_lr_shape_witness :
    0 ≤ get_lr lrCfgScenario 123 ∧ get_lr lrCfgScenario 650000 = lrCfgScenario.min_lr := by
  have h := get_lr_shape lrCfgScenario (by norm_num [lrCfgScenario])
    (by norm_num [lrCfgScenario]) (by norm_num [lrCfgScenario])
  exact ⟨h.1 123, h.2.2.2.2 650000 (by norm_num [lrCfgScenario])⟩

/-- Claim C8: with `warmup_iters < lr_decay_iters`, on the cosine branch
(`¬ it < warmup_iters` and `¬ lr_decay_iters < it`) the decay ratio lies in
`[0, 1]`, so the source's `assert 0 <= decay_ratio <= 1` never fails there. -/
theorem decay_frac_in_unit_interval (cfg : LRConfig)
    (hwd : cfg.warmup_iters < cfg.lr_decay_iters) (it : ℕ)
    (h1 : ¬ it < cfg.warmup_iters) (h2 : ¬ cfg.lr_decay_iters < it) :
    0 ≤ decay_frac cfg it ∧ decay_frac cfg it ≤ 1 := by
  have hdw : (0 : ℝ) < (cfg.lr_decay_iters : ℝ) - cfg.warmup_iters := by
    have : (cfg.warmup_iters : ℝ) < cfg.lr_decay_iters := by exact_mod_cast hwd
    linarith
  have hiw : (cfg.warmup_iters : ℝ) ≤ it := by exact_mod_cast not_lt.mp h1
  have hid : (it : ℝ) ≤ cfg.lr_decay_iters := by exact_mod_cast not_lt.mp h2
  exact ⟨div_nonneg (by linarith) hdw.le, (div_le_one hdw).mpr (by linarith)⟩

/-- Witness for C8: the assertion bound instantiated at the scenario
configuration and iteration 3000, with its hypotheses discharged. -/
theorem decay_frac_in_unit_interval_witness :
    0 ≤ decay_frac lrCfgScenario 3000 ∧ decay_frac lrCfgScenario 3000 ≤ 1 :=
  decay_frac_in_unit_interval lrCfgScenario (by norm_num [lrCfgScenario]) 3000
    (by norm_num [lrCfgScenario]) (by norm_num [lrCfgScenario])

/-- Claim C9: padding is idempotent and non-truncating — a batch whose
examples are all already at the batch-wide maximum lengths passes the
padding loop with the store returned unchanged (no content token changes),
and whenever the padding loop completes it only ever extends sequences,
never removing or truncating content tokens. -/
theorem padding_idempotent_nontruncating :
    (∀ (d : Store) (tlen ilen : ℕ) (win : List ℕ),
      (∀ i ∈ win, ∃ e, lookupKey d (.str i) = some e ∧
        ¬ e.target.length < tlen ∧ ¬ e.input.length < ilen) →
      padLoop tlen ilen win d = .ok d) ∧
    (∀ (d d' : Store) (tlen ilen : ℕ) (win : List ℕ),
      padLoop tlen ilen win d = .ok d' → ExtendsStore d d') :=
  ⟨fun _ _ _ _ hwin => padLoop_ok_of_full hwin,
   fun _ _ _ _ _ h => padLoop_extends h⟩

/-- Witness for C9: a concrete two-example batch already at the batch
maxima (inputs of length 2, targets of length 1) passes the padding loop
unchanged, via the theorem with its hypothesis discharged. -/
theorem padding_idempotent_witness :
    padLoop 1 2 [0, 1] [(PyKey.str 0, ⟨[1, 2], [3]⟩), (PyKey.str 1, ⟨[9, 9], [4]⟩)] =
      .ok [(PyKey.str 0, ⟨[1, 2], [3]⟩), (PyKey.str 1, ⟨[9, 9], [4]⟩)] :=
  padding_idempotent_nontruncating.1 _ 1 2 [0, 1] (by
    intro i hi
    rcases List.mem_cons.mp hi with rfl | hi'
    · exact ⟨⟨[1, 2], [3]⟩, by decide⟩
    · rcases List.mem_cons.mp hi' with rfl | h
      · exact ⟨⟨[9, 9], [4]⟩, by decide⟩
      · cases h)

/-- Claim C10: on a string-keyed (JSON-loaded) store whose window keys all
resolve, the padding loop raises a key-lookup error exactly when some
window example's input or target is strictly shorter than the batch-wide
maximum, and it completes only when every window example already has
exactly the batch-maximum input and target lengths (returning the store
unchanged). -/
theorem padLoop_fails_unless_all_at_max (d : Store) (win : List ℕ) (hS : strKeyed d)
    (hwin : ∀ i ∈ win, ∃ e, lookupKey d (.str i) = some e) :
    ((padLoop (window_target_len d win) (window_input_len d win) win d = .error .keyError ↔
      ∃ i ∈ win, ∃ e, lookupKey d (.str i) = some e ∧
        (e.target.length < window_target_len d win ∨
         e.input.length < window_input_len d win)) ∧
     (∀ d', padLoop (window_target_len d win) (window_input_len d win) win d = .ok d' →
       d' = d ∧ ∀ i ∈ win, ∀ e, lookupKey d (.str i) = some e →
         e.target.length = window_target_len d win ∧
         e.input.length = window_input_len d win)) := by
  rcases padLoop_charact (window_target_len d win) (window_input_len d win) win d hS hwin with
    ⟨hpad, hall⟩ | ⟨hpad, hex⟩
  · constructor
    · rw [hpad]
      constructor
      · intro h; cases h
      · rintro ⟨i, hi, e, he, hsh⟩
        rcases hsh with h | h
        · exact absurd h (hall i hi e he).1
        · exact absurd h (hall i hi e he).2
    · intro d' h
      rw [hpad] at h
      injection h with h1
      subst h1
      refine ⟨rfl, fun i hi e he => ?_⟩
      exact ⟨le_antisymm (target_length_le_window hi he) (not_lt.mp (hall i hi e he).1),
        le_antisymm (input_length_le_window hi he) (not_lt.mp (hall i hi e he).2)⟩
  · constructor
    · rw [hpad]
      exact ⟨fun _ => hex, fun _ => rfl⟩
    · intro d' h
      rw [hpad] at h
      cases h

/-- Witness for C10: on the concrete scenario store (input lengths 3 and 5)
the theorem, with its hypotheses discharged, yields the `KeyError`. -/
theorem padLoop_fails_witness :
    padLoop (window_target_len scenarioStore [0, 1]) (window_input_len scenarioStore [0, 1])
      [0, 1] scenarioStore = .error .keyError := by
  have h := padLoop_fails_unless_all_at_max scenarioStore [0, 1]
    (by
      intro p hp
      rcases List.mem_cons.mp hp with rfl | hp'
      · exact ⟨0, rfl⟩
      · rcases List.mem_cons.mp hp' with rfl | h0
        · exact ⟨1, rfl⟩
        · cases h0)
    (by
      intro i hi
      rcases List.mem_cons.mp hi with rfl | hi'
      · exact ⟨⟨[1, 2, 3], [7]⟩, by decide⟩
      · rcases List.mem_cons.mp hi' with rfl | h0
        · exact ⟨⟨[4, 5, 6, 7, 8], [9]⟩, by decide⟩
        · cases h0)
  exact h.1.mpr ⟨0, by decide, ⟨[1, 2, 3], [7]⟩, by decide, by decide⟩

end NanoGPT
